import Mathlib

/-!
# Verification of the whisper-ware audio pipeline against its specification

Shallow embedding of the relevant parts of the whisper-ware sources
(`src/main.rs`, `src/config.rs`, `src/error.rs`) and proofs of the frozen
claims about them.

Modelling conventions:
* Audio samples are `f32` in the source; the pipeline only moves them around
  (no arithmetic is ever performed on a sample), so the sample type is kept
  polymorphic (`α`) and instantiated with `Int` in concrete runs.
* Config parameter values are `f32` in the source; the config code only
  stores, compares and (de)serializes them, so they are modelled as exact
  rationals (`ℚ`), with the decimal literals of the source carried exactly.
* `kanal` bounded-channel semantics (the sources use `kanal::bounded`):
  `try_send` returns `Ok(true)` when the value is enqueued, `Ok(false)` when
  the queue is at capacity (the value is dropped), and `Err` only when the
  channel is closed; `recv` blocks while the queue is empty and the channel
  is open, returns the oldest element when one is available, and returns
  `Err` only when the channel is closed and drained.
* Machine integers (`u32` sample rates, `usize` channel counts and lengths)
  are modelled as `Nat`; no overflow is possible at the magnitudes involved.
  The source compares sample rates after an `as f32` cast, which is injective
  for all realistic rates (below 2^24), so the comparison is modelled on `Nat`.
-/

namespace WhisperWare

/-- `const BLOCK_SIZE: usize = 512;` — the size of the audio frames used for
processing (`main.rs`). -/
def BLOCK_SIZE : Nat := 512

/-- The error taxonomy of `error.rs` (`ErrorKind`).  Payloads of wrapped
foreign errors (`io::Error`, `SendError`, …) are irrelevant to the claims and
are dropped; `InvalidConfiguration` keeps its `&'static str` message. -/
inductive ErrorKind
  | Send
  | Receive
  | Devices
  | BuildStream
  | PlayStream
  | DefaultStreamConfig
  | ConfigRead
  | ConfigWrite
  | Json
  | NoOutputDevice
  | InvalidConfiguration (msg : String)
  | NoInputDevice
  | EditorMissing
  | Poison
  | ConfigDir
deriving DecidableEq, Repr

/-! ## FrameBridge: a `kanal::bounded` channel of `[f32; 2]` frames

Both bridges in `backend` are `bounded::<[f32; 2]>(BLOCK_SIZE * 4)`. -/

/-- A bounded FIFO channel of two-sample frames (`kanal::bounded`), with its
fixed capacity and a closed flag (the channel closes when the other side is
dropped). `queue` is oldest-first. -/
structure Chan (α : Type) where
  queue : List (α × α)
  capacity : Nat
  closed : Bool
deriving DecidableEq, Repr

/-- A freshly created session bridge: `bounded::<[f32; 2]>(BLOCK_SIZE * 4)`. -/
def sessionChan (α : Type) : Chan α := ⟨[], BLOCK_SIZE * 4, false⟩

/-- `kanal::Sender::try_send`: `Err` when the channel is closed, `Ok(true)`
when the frame is enqueued, `Ok(false)` when the queue is at capacity (the
frame is dropped). -/
def trySend {α : Type} (ch : Chan α) (f : α × α) : Except Unit (Bool × Chan α) :=
  if ch.closed then .error ()
  else if ch.queue.length < ch.capacity then .ok (true, { ch with queue := ch.queue ++ [f] })
  else .ok (false, ch)

/-- Outcome of `kanal::Receiver::recv` on a channel in a given state:
a frame when one is queued, an error when the channel is closed and empty,
and otherwise the call blocks. -/
inductive RecvResult (α : Type)
  | got (f : α × α) (rest : Chan α)
  | closedEmpty
  | blocked
deriving DecidableEq, Repr

/-- `kanal::Receiver::recv` on a channel in a given state. -/
def chanRecv {α : Type} (ch : Chan α) : RecvResult α :=
  match ch.queue with
  | f :: q => .got f { ch with queue := q }
  | [] => if ch.closed then .closedEmpty else .blocked

/-! ## Capture callback (`backend`, `build_input_stream` data callback)

```rust
move |input: &[f32], _: &_| {
    for frame in input.chunks(2) {
        _ = input_sender.try_send([frame[0], frame[1]]);
    }
}
```
-/

/-- One `_ = input_sender.try_send(...)` of the capture callback: both the
full-queue result (`Ok(false)`) and the closed-channel result (`Err`) are
discarded, so the frame is silently dropped in either case. -/
def captureSend {α : Type} (ch : Chan α) (f : α × α) : Chan α :=
  match trySend ch f with
  | .error _ => ch
  | .ok (_, ch') => ch'

/-- The capture data callback: iterates `input.chunks(2)` and enqueues
`[frame[0], frame[1]]` for each chunk.  A trailing chunk of length 1 makes
`frame[1]` an out-of-bounds index, which panics; `none` models that panic. -/
def captureCallback {α : Type} : List α → Chan α → Option (Chan α)
  | [], ch => some ch
  | a :: b :: rest, ch => captureCallback rest (captureSend ch (a, b))
  | [_], _ => none

/-- The consecutive two-sample frames of an interleaved buffer
(the frames produced by `input.chunks(2)` when the length is even). -/
def framePairs {α : Type} : List α → List (α × α)
  | a :: b :: rest => (a, b) :: framePairs rest
  | _ => []

/-! ## Render callback (`backend`, `build_output_stream` data callback)

```rust
move |output: &mut [f32], _: &_| {
    for frame in output.chunks_mut(2) {
        let samples = output_receiver.recv().unwrap_or(SILENCE);
        frame[0] = samples[0];
        frame[1] = samples[1];
    }
}
```
-/

/-- `const SILENCE: [f32; 2] = [0_f32, 0_f32];` (`main.rs`). -/
def SILENCE : Int × Int := (0, 0)

/-- What one `output_receiver.recv().unwrap_or(SILENCE)` of the render
callback does for one output frame: a queued frame is consumed; when the
channel is closed and empty, `recv` returns `Err` and `unwrap_or` substitutes
`SILENCE`; when the channel is empty but open, `recv` blocks. -/
inductive RenderStep (α : Type)
  | fills (f : α × α) (rest : Chan α)
  | blocked
deriving DecidableEq, Repr

/-- One frame of the render callback (see `RenderStep`). -/
def renderFrame (ch : Chan Int) : RenderStep Int :=
  match chanRecv ch with
  | .got f rest => .fills f rest
  | .closedEmpty => .fills SILENCE ch
  | .blocked => .blocked

/-! ## The processing loop (`processor`, `main.rs` lines 330–375)

```rust
let mut inputs = [[0_f32; BLOCK_SIZE]; 3];
let mut outputs = [[0_f32; BLOCK_SIZE]; 3];
let mut buffer = HostBuffer::new(3, 3);
let mut position = 0;
while run.load(Relaxed) {
    let frame = receiver.recv()?;
    inputs[0][position] = frame[0];
    inputs[1][position] = frame[1];
    position += 1;
    if position < BLOCK_SIZE { continue; } else { position = 0; }
    let mut audio_buffer = buffer.bind(&inputs, &mut outputs);
    instance.process(&mut audio_buffer);
    for frame in outputs[0].into_iter().zip(outputs[1].into_iter()) {
        sender.try_send([frame.0, frame.1])?;
    }
}
run.store(true, Relaxed);
Ok(())
```

The fixed arrays `inputs[0]`, `inputs[1]` are written sequentially from index
0; when `position` reaches `BLOCK_SIZE` every entry of the current block has
just been overwritten, so the pair of channel buffers passed to the engine is
exactly the current block's frames, deinterleaved.  They are modelled by the
list of frames of the current (partial) block, newest first (`revAcc`), with
`position` mirroring the source's cursor (`position = revAcc.length`).
`inputs[2]`/`outputs[2]` (a third channel required by the `HostBuffer` shape,
never written from and never read into the audio path) are omitted.  The
external VST `instance.process` is the opaque parameter `engine`, consuming
and producing the two planar channel buffers; in the source its output
buffers are fixed `[f32; BLOCK_SIZE]` arrays, so both returned lists have
length `BLOCK_SIZE` and their `zip` re-interleaves the whole block. -/

/-- State of the processing loop between iterations. -/
structure PState (α : Type) where
  position : Nat
  revAcc : List (α × α)
  calls : List (List α × List α)
  out : Chan α
deriving DecidableEq, Repr

/-- Send one re-interleaved processed block to the output bridge:
`for frame in outputs[0].into_iter().zip(outputs[1].into_iter()) { sender.try_send(...)?; }`.
`Ok(false)` (full queue) is discarded by the `?;` — only a closed channel
(`Err`) aborts, propagating out of `processor`. -/
def sendBlock {α : Type} : Chan α → List (α × α) → Except (Chan α) (Chan α)
  | ch, [] => .ok ch
  | ch, f :: fs =>
    match trySend ch f with
    | .error _ => .error ch
    | .ok (_, ch') => sendBlock ch' fs

/-- The body of one loop iteration of `processor` after `recv` returned a
frame: deinterleave, advance the cursor, and on a full block call the engine
and re-interleave its output onto the output bridge.  An `Err` from
`try_send` (closed channel) is propagated together with the state at the
point of failure. -/
def feedFrame {α : Type} (engine : List α → List α → List α × List α)
    (st : PState α) (f : α × α) : Except (ErrorKind × PState α) (PState α) :=
  let revAcc := f :: st.revAcc
  let position := st.position + 1
  if position < BLOCK_SIZE then
    .ok { st with revAcc := revAcc, position := position }
  else
    let block := revAcc.reverse
    let in0 := block.map Prod.fst
    let in1 := block.map Prod.snd
    let o := engine in0 in1
    let calls := st.calls ++ [(in0, in1)]
    match sendBlock st.out (o.1.zip o.2) with
    | .ok ch => .ok ⟨0, [], calls, ch⟩
    | .error ch => .error (.Send, ⟨0, [], calls, ch⟩)

/-- Iterated `feedFrame` over a list of received frames. -/
def feed {α : Type} (engine : List α → List α → List α × List α) :
    PState α → List (α × α) → Except (ErrorKind × PState α) (PState α)
  | st, [] => .ok st
  | st, f :: fs =>
    match feedFrame engine st f with
    | .ok st' => feed engine st' fs
    | .error e => .error e

/-- Events observed by the processing loop, in order: the outcomes of its
`receiver.recv()` calls interleaved with stores to the shared `run` flag by
the other threads (the menu handler and the stream error callbacks). -/
inductive Ev (α : Type)
  | setRun (b : Bool)
  | frame (f : α × α)
  | closed
deriving DecidableEq, Repr

/-- Outcome of the processing loop: normal return (`Ok(())`), an error
propagated by `?`, or the loop still blocked inside `recv` when the event
script ends. -/
inductive Outcome
  | ok
  | err (e : ErrorKind)
  | blocked
deriving DecidableEq, Repr

/-- The `processor` loop from the point where the `while run.load(Relaxed)`
check has already passed and the loop is inside `receiver.recv()`.  A
`setRun` event is a store to the shared flag landing while the loop is
blocked (or, equivalently, anywhere since the last flag check); `closed`
makes `recv` return `Err`, which `?` propagates WITHOUT executing the final
`run.store(true)`.  After a frame is processed the loop returns to the
`while` check; on a cleared flag it exits the loop, stores `true` back into
the flag, and returns `Ok(())`.  Returns (outcome, final flag, final state). -/
def procRecv {α : Type} (engine : List α → List α → List α × List α) :
    List (Ev α) → Bool → PState α → Outcome × Bool × PState α
  | [], run, st => (.blocked, run, st)
  | .setRun b :: rest, _, st => procRecv engine rest b st
  | .closed :: _, run, st => (.err .Receive, run, st)
  | .frame f :: rest, run, st =>
    match feedFrame engine st f with
    | .error (e, st') => (.err e, run, st')
    | .ok st' => if run then procRecv engine rest run st' else (.ok, true, st')

/-- The `processor` function: the initial `while run.load(Relaxed)` check,
then `procRecv`.  When the flag is already cleared the loop body never runs,
`run.store(true)` executes and `Ok(())` is returned. -/
def procLoop {α : Type} (engine : List α → List α → List α × List α)
    (evs : List (Ev α)) (run : Bool) (st : PState α) : Outcome × Bool × PState α :=
  if run then procRecv engine evs run st else (.ok, true, st)

/-- The maximal list of complete `n`-chunks of a list, in order; a trailing
partial chunk is not included.  (Specification-side notion used to state what
the block assembler submits to the engine.) -/
def fullBlocks {β : Type} (n : Nat) (l : List β) : List (List β) :=
  if h : 0 < n ∧ n ≤ l.length then
    l.take n :: fullBlocks n (l.drop n)
  else []
termination_by l.length
decreasing_by
  simp only [List.length_drop]
  exact Nat.sub_lt (Nat.lt_of_lt_of_le h.1 h.2) h.1

/-- The pair of planar channel buffers the engine receives for one block:
channel 0 holds the left samples, channel 1 the right samples, each at the
position of its frame's arrival within the block. -/
def deinterleave {α : Type} (b : List (α × α)) : List α × List α :=
  (b.map Prod.fst, b.map Prod.snd)

/-! ## Device resolution (`backend` lines 240–256 and `device_by_name`) -/

/-- A cpal device as the resolution and validation code observes it:
`device.name()` may fail (`none`), and `default_input_config()` /
`default_output_config()` yields a (sample rate, channel count) pair or
fails (`none`). -/
structure Device where
  name? : Option String
  config? : Option (Nat × Nat)
deriving DecidableEq, Repr

/-- `pat` occurs at the start of `hay` (helper for Rust's `str::contains`). -/
def listStartsWith : List Char → List Char → Bool
  | [], _ => true
  | _ :: _, [] => false
  | a :: pat, b :: hay => a = b && listStartsWith pat hay

/-- Rust's `str::contains(other)`: `pat` occurs as a contiguous substring of
`hay` (on the character sequences; `str::contains` with a `&str` pattern
matches exactly the contiguous substrings). -/
def listContains (hay pat : List Char) : Bool :=
  if listStartsWith pat hay then true
  else
    match hay with
    | [] => false
    | _ :: t => listContains t pat

/-- ```rust
fn device_by_name(device: &Device, other: &str) -> bool {
    if let Ok(name) = device.name() { name.contains(other) } else { false }
}
``` -/
def device_by_name (device : Device) (other : String) : Bool :=
  match device.name? with
  | some name => listContains name.data other.data
  | none => false

/-- Device resolution as done (twice, once per role) in `backend`:
`"Default"` takes the platform default device for the role
(`default_input_device()` / `default_output_device()`, `none` when absent);
any other selection takes the first enumerated device satisfying
`device_by_name`; failure is the role's error (`NoInputDevice` /
`NoOutputDevice`). -/
def resolveDevice (selection : String) (dflt : Option Device)
    (devices : List Device) (missing : ErrorKind) : Except ErrorKind Device :=
  if selection = "Default" then
    match dflt with
    | some d => .ok d
    | none => .error missing
  else
    match devices.find? (fun d => device_by_name d selection) with
    | some d => .ok d
    | none => .error missing

/-! ## Session start (`backend` lines 230–327) -/

/-- The environment one `backend` call runs in: the configured selection
strings (`CONFIG.devices()`), the enumerations and defaults of the cpal
host, and whether this is the first session (`*initialize`). -/
structure BackendEnv where
  inputName : String
  outputName : String
  inputDevices : List Device
  outputDevices : List Device
  defaultInput : Option Device
  defaultOutput : Option Device
  initFlag : Bool
deriving Repr

/-- Externally visible actions `backend` performs while starting a session,
in program order. -/
inductive BAction
  | engineConfigured
  | engineInit
  | builtInput
  | builtOutput
  | playedInput
  | playedOutput
deriving DecidableEq, Repr

/-- `backend` up to the point where both streams are playing and the
processing loop (modelled separately by `procLoop`) takes over: resolve both
devices, fetch their default configs, validate sample rates and channel
counts, configure (and on the first session initialize) the engine, build
and play both streams.  Returns the result together with the list of actions
performed; every error path returns before any stream is built.  Stream
build/play failures of the OS layer are outside the modelled claims and the
happy path records the actions in source order. -/
def backendModel (env : BackendEnv) : Except ErrorKind Unit × List BAction :=
  match resolveDevice env.inputName env.defaultInput env.inputDevices .NoInputDevice with
  | .error e => (.error e, [])
  | .ok din =>
    match resolveDevice env.outputName env.defaultOutput env.outputDevices .NoOutputDevice with
    | .error e => (.error e, [])
    | .ok dout =>
      match din.config? with
      | none => (.error .DefaultStreamConfig, [])
      | some (inRate, inChannels) =>
        match dout.config? with
        | none => (.error .DefaultStreamConfig, [])
        | some (outRate, outChannels) =>
          if inRate ≠ outRate then
            (.error (.InvalidConfiguration "input and output sample rates are different"), [])
          else if inChannels ≠ 2 ∨ outChannels ≠ 2 then
            (.error (.InvalidConfiguration "only stereo is supported"), [])
          else
            (.ok (),
              (if env.initFlag then [BAction.engineConfigured, BAction.engineInit]
               else [BAction.engineConfigured])
              ++ [BAction.builtInput, BAction.builtOutput, BAction.playedInput, BAction.playedOutput])

/-! ## Config store and persistence (`config.rs`) -/

/-- `struct Config` of `config.rs`: the 11 `f32` parameters (modelled as
exact rationals, see the header) and the two device-selection strings. -/
structure Config where
  sidechain_hpf : ℚ
  input_level : ℚ
  sensitivity : ℚ
  ratio : ℚ
  attack : ℚ
  release : ℚ
  makeup : ℚ
  mix : ℚ
  output_level : ℚ
  sidechain : ℚ
  full_bandwidth : ℚ
  input_device : String
  output_device : String
deriving DecidableEq, Repr

/-- `impl Default for Config` (`config.rs` lines 36–54). -/
def Config.default : Config where
  sidechain_hpf := 20
  input_level := 1
  sensitivity := 0.48333332
  ratio := 1
  attack := 0
  release := 0.09090909
  makeup := 0.33333334
  mix := 1
  output_level := 1
  sidechain := 0
  full_bandwidth := 1
  input_device := "Default"
  output_device := "Default"

/-- The subset of the serde_json value model the config document uses.
Numbers are carried exactly (serde_json round-trips every finite `f32`
exactly through its shortest-decimal text form). -/
inductive Json
  | null
  | num (q : ℚ)
  | str (s : String)
  | obj (fields : List (String × Json))

/-- serde deserialization of an `f32` field. -/
def Json.asNum : Json → Except ErrorKind ℚ
  | .num q => .ok q
  | _ => .error .Json

/-- serde deserialization of a `String` field. -/
def Json.asStr : Json → Except ErrorKind String
  | .str s => .ok s
  | _ => .error .Json

/-- serde field lookup in a JSON object: a missing field is a parse error. -/
def Json.getField (fields : List (String × Json)) (key : String) : Except ErrorKind Json :=
  match fields.lookup key with
  | some v => .ok v
  | none => .error .Json

/-- `serde_json::to_writer_pretty` of a `Config`: a JSON object with the
struct's fields in declaration order. -/
def serializeConfig (c : Config) : Json :=
  .obj [("sidechain_hpf", .num c.sidechain_hpf),
        ("input_level", .num c.input_level),
        ("sensitivity", .num c.sensitivity),
        ("ratio", .num c.ratio),
        ("attack", .num c.attack),
        ("release", .num c.release),
        ("makeup", .num c.makeup),
        ("mix", .num c.mix),
        ("output_level", .num c.output_level),
        ("sidechain", .num c.sidechain),
        ("full_bandwidth", .num c.full_bandwidth),
        ("input_device", .str c.input_device),
        ("output_device", .str c.output_device)]

/-- `serde_json::from_reader::<_, Config>` on a parsed JSON document: the
derived `Deserialize` requires an object and one value of the right type per
field (missing field or wrong type is an error; unknown fields are ignored). -/
def parseConfig : Json → Except ErrorKind Config
  | .obj fields => do
    let sidechain_hpf ← Json.asNum (← Json.getField fields "sidechain_hpf")
    let input_level ← Json.asNum (← Json.getField fields "input_level")
    let sensitivity ← Json.asNum (← Json.getField fields "sensitivity")
    let ratio ← Json.asNum (← Json.getField fields "ratio")
    let attack ← Json.asNum (← Json.getField fields "attack")
    let release ← Json.asNum (← Json.getField fields "release")
    let makeup ← Json.asNum (← Json.getField fields "makeup")
    let mix ← Json.asNum (← Json.getField fields "mix")
    let output_level ← Json.asNum (← Json.getField fields "output_level")
    let sidechain ← Json.asNum (← Json.getField fields "sidechain")
    let full_bandwidth ← Json.asNum (← Json.getField fields "full_bandwidth")
    let input_device ← Json.asStr (← Json.getField fields "input_device")
    let output_device ← Json.asStr (← Json.getField fields "output_device")
    .ok { sidechain_hpf, input_level, sensitivity, ratio, attack, release,
          makeup, mix, output_level, sidechain, full_bandwidth,
          input_device, output_device }
  | _ => .error .Json

/-- State of the parameter file as `AtomicConfig::new` observes it:
missing, or present with contents that either parse as a JSON document
(`some j`) or are unreadable as JSON (`none`). -/
inductive FsFile
  | missing
  | holds (content : Option Json)

/-- `AtomicConfig::new` (`config.rs` lines 122–143): when the file exists,
open it (`ConfigRead` error when the open fails) and deserialize it — a
parse failure propagates (`?` on `from_reader`); when the file is missing,
create it (`ConfigWrite` error when the create fails) and write the defaults
into it (`?` on `to_writer_pretty`, a `Json` error).  Returns the seeded
config together with the resulting file state. -/
def AtomicConfig.new (f : FsFile) (openOk createOk writeOk : Bool) :
    Except ErrorKind (Config × FsFile) :=
  match f with
  | .holds content =>
    if openOk then
      match content with
      | some j => (parseConfig j).map (fun c => (c, FsFile.holds content))
      | none => .error .Json
    else .error .ConfigRead
  | .missing =>
    if createOk then
      if writeOk then .ok (Config.default, .holds (some (serializeConfig Config.default)))
      else .error .Json
    else .error .ConfigWrite

/-- One iteration of `AtomicConfig::save_thread` (`config.rs` lines 256–285)
after the 300 ms sleep, with `current` the snapshot of the store and `old`
the worker-local `old_config`: an unchanged snapshot is skipped; otherwise
`old_config` is updated first, then the path lock is read (`Poison` on a
poisoned lock, propagated by `?`), the file is opened for truncating write —
an open failure is only logged (`error!`) and the loop continues — and the
snapshot is serialized into it, where a failure of `to_writer_pretty` is
propagated by `?`, terminating the worker.  Returns the worker's new
`old_config` and whether the file was written. -/
def AtomicConfig.saveIteration (current old : Config) (pathOk openOk writeOk : Bool) :
    Except ErrorKind (Config × Bool) :=
  if current = old then .ok (old, false)
  else if pathOk then
    if openOk then
      if writeOk then .ok (current, true) else .error .Json
    else .ok (current, false)
  else .error .Poison

end WhisperWare

/-! ## Helper lemmas -/

namespace WhisperWare

theorem listStartsWith_iff : ∀ (pat hay : List Char),
    listStartsWith pat hay = true ↔ ∃ t, hay = pat ++ t
  | [], hay => by simp [listStartsWith]
  | a :: pat, [] => by simp [listStartsWith]
  | a :: pat, b :: hay => by
    simp only [listStartsWith, Bool.and_eq_true, decide_eq_true_eq,
      listStartsWith_iff pat hay, List.cons_append, List.cons.injEq]
    constructor
    · rintro ⟨rfl, t, rfl⟩
      exact ⟨t, rfl, rfl⟩
    · rintro ⟨t, rfl, rfl⟩
      exact ⟨rfl, t, rfl⟩

theorem listContains_iff : ∀ (hay pat : List Char),
    listContains hay pat = true ↔ ∃ s t, hay = s ++ pat ++ t := by
  intro hay
  induction hay with
  | nil =>
    intro pat
    rw [listContains]
    cases pat with
    | nil => simp [listStartsWith]
    | cons a pat => simp [listStartsWith]
  | cons b hay ih =>
    intro pat
    rw [listContains]
    by_cases hs : listStartsWith pat (b :: hay) = true
    · simp only [hs, if_true, true_iff]
      obtain ⟨t, ht⟩ := (listStartsWith_iff _ _).1 hs
      exact ⟨[], t, by simp [ht]⟩
    · rw [if_neg hs, ih pat]
      constructor
      · rintro ⟨s, t, rfl⟩
        exact ⟨b :: s, t, rfl⟩
      · rintro ⟨s, t, hst⟩
        cases s with
        | nil =>
          exact absurd ((listStartsWith_iff _ _).2 ⟨t, by simpa using hst⟩) hs
        | cons b' s =>
          rw [List.cons_append, List.cons_append, List.cons.injEq] at hst
          exact ⟨s, t, by simpa [List.append_assoc] using hst.2⟩

theorem device_by_name_iff (d : Device) (sel : String) :
    device_by_name d sel = true ↔
      ∃ n s t, d.name? = some n ∧ n.data = s ++ sel.data ++ t := by
  obtain ⟨name?, config?⟩ := d
  cases name? with
  | none => simp [device_by_name]
  | some n => simp [device_by_name, listContains_iff]

theorem find?_first {β : Type} (p : β → Bool) :
    ∀ (l : List β) (d : β), l.find? p = some d →
      ∃ pre post, l = pre ++ d :: post ∧ p d = true ∧ ∀ x ∈ pre, p x = false := by
  intro l
  induction l with
  | nil => intro d h; simp [List.find?] at h
  | cons a l ih =>
    intro d h
    by_cases ha : p a = true
    · rw [List.find?_cons_of_pos _ ha, Option.some.injEq] at h
      subst h
      exact ⟨[], l, rfl, ha, by simp⟩
    · rw [List.find?_cons_of_neg _ ha] at h
      obtain ⟨pre, post, rfl, hd, hpre⟩ := ih d h
      refine ⟨a :: pre, post, rfl, hd, ?_⟩
      intro x hx
      rcases List.mem_cons.1 hx with rfl | hx
      · simpa using ha
      · exact hpre x hx

theorem fullBlocks_of_lt {β : Type} {n : Nat} {l : List β} (h : l.length < n) :
    fullBlocks n l = [] := by
  rw [fullBlocks, dif_neg]
  rintro ⟨-, hle⟩
  exact absurd h (Nat.not_lt.2 hle)

theorem fullBlocks_step {β : Type} {n : Nat} {l : List β} (h0 : 0 < n) (hle : n ≤ l.length) :
    fullBlocks n l = l.take n :: fullBlocks n (l.drop n) := by
  rw [fullBlocks, dif_pos ⟨h0, hle⟩]

theorem length_fullBlocks {β : Type} {n : Nat} (h0 : 0 < n) :
    ∀ (m : Nat) (l : List β), l.length = m → (fullBlocks n l).length = l.length / n := by
  intro m
  induction m using Nat.strong_induction_on with
  | _ m ih =>
    intro l hm
    by_cases hle : n ≤ l.length
    · have hdec : (l.drop n).length < m := by
        subst hm
        simp only [List.length_drop]
        exact Nat.sub_lt (Nat.lt_of_lt_of_le h0 hle) h0
      rw [fullBlocks_step h0 hle, List.length_cons, ih _ hdec _ rfl, List.length_drop,
        Nat.div_eq_sub_div h0 hle]
    · rw [fullBlocks_of_lt (Nat.not_le.1 hle), List.length_nil,
        Nat.div_eq_of_lt (Nat.not_le.1 hle)]

theorem sendBlock_open {α : Type} :
    ∀ (l : List (α × α)) (ch : Chan α), ch.closed = false →
      ∃ ch', sendBlock ch l = .ok ch' ∧ ch'.closed = false ∧ ch'.capacity = ch.capacity := by
  intro l
  induction l with
  | nil => intro ch h; exact ⟨ch, rfl, h, rfl⟩
  | cons f fs ih =>
    intro ch h
    rw [sendBlock, trySend, if_neg (by simp [h])]
    by_cases hc : ch.queue.length < ch.capacity
    · rw [if_pos hc]
      obtain ⟨ch', h1, h2, h3⟩ := ih { ch with queue := ch.queue ++ [f] } h
      exact ⟨ch', h1, h2, h3⟩
    · rw [if_neg hc]
      exact ih ch h

theorem sendBlock_full {α : Type} :
    ∀ (l : List (α × α)) (ch : Chan α), ch.closed = false →
      ch.capacity ≤ ch.queue.length → sendBlock ch l = .ok ch := by
  intro l
  induction l with
  | nil => intro ch _ _; rfl
  | cons f fs ih =>
    intro ch h hfull
    rw [sendBlock, trySend, if_neg (by simp [h]), if_neg (Nat.not_lt.2 hfull)]
    exact ih ch h hfull

theorem sendBlock_closed {α : Type} (f : α × α) (fs : List (α × α)) (ch : Chan α)
    (h : ch.closed = true) : sendBlock ch (f :: fs) = .error ch := by
  rw [sendBlock, trySend, if_pos (by simp [h])]

end WhisperWare

namespace WhisperWare

theorem feed_append {α : Type} (engine : List α → List α → List α × List α) :
    ∀ (l₁ l₂ : List (α × α)) (st : PState α),
      feed engine st (l₁ ++ l₂) =
        match feed engine st l₁ with
        | .ok st' => feed engine st' l₂
        | .error e => .error e := by
  intro l₁
  induction l₁ with
  | nil => intros; rfl
  | cons f fs ih =>
    intro l₂ st
    simp only [List.cons_append, feed]
    cases feedFrame engine st f with
    | ok st' => exact ih l₂ st'
    | error e => rfl

theorem feed_fill {α : Type} (engine : List α → List α → List α × List α) :
    ∀ (l : List (α × α)) (st : PState α),
      st.position + l.length < BLOCK_SIZE →
      feed engine st l = .ok ⟨st.position + l.length, l.reverse ++ st.revAcc, st.calls, st.out⟩ := by
  intro l
  induction l with
  | nil =>
    intro st _
    simp [feed]
  | cons f fs ih =>
    intro st h
    obtain ⟨pos, acc, cs, out⟩ := st
    simp only [List.length_cons] at h
    have hf : feedFrame engine ⟨pos, acc, cs, out⟩ f = .ok ⟨pos + 1, f :: acc, cs, out⟩ := by
      rw [feedFrame]
      exact if_pos (show pos + 1 < BLOCK_SIZE by omega)
    have hlt : pos + 1 + fs.length < BLOCK_SIZE := by omega
    have ih' : feed engine ⟨pos + 1, f :: acc, cs, out⟩ fs
        = .ok ⟨pos + 1 + fs.length, fs.reverse ++ (f :: acc), cs, out⟩ := ih _ hlt
    simp only [feed, hf]
    rw [ih']
    simp only [Except.ok.injEq, PState.mk.injEq, List.length_cons, List.reverse_cons,
      List.append_assoc, List.singleton_append, and_true, true_and]
    omega

theorem feed_block_open {α : Type} (engine : List α → List α → List α × List α)
    (b : List (α × α)) (calls : List (List α × List α)) (out : Chan α)
    (hb : b.length = BLOCK_SIZE) (hopen : out.closed = false) :
    ∃ out', feed engine ⟨0, [], calls, out⟩ b =
        .ok ⟨0, [], calls ++ [deinterleave b], out'⟩
      ∧ out'.closed = false ∧ out'.capacity = out.capacity := by
  have hb0 : b ≠ [] := by
    intro h
    rw [h] at hb
    simp [BLOCK_SIZE] at hb
  obtain ⟨l, x, rfl⟩ : ∃ l x, b = l ++ [x] :=
    ⟨b.dropLast, b.getLast hb0, (List.dropLast_append_getLast hb0).symm⟩
  have hl : l.length = BLOCK_SIZE - 1 := by
    simp only [List.length_append, List.length_singleton] at hb
    omega
  rw [feed_append]
  rw [feed_fill engine l ⟨0, [], calls, out⟩ (by simp [hl, BLOCK_SIZE])]
  simp only [feed, feedFrame]
  rw [if_neg (by simp [hl, BLOCK_SIZE])]
  have hblock : (x :: (l.reverse ++ ([] : List (α × α)))).reverse = l ++ [x] := by
    simp
  obtain ⟨ch', h1, h2, h3⟩ := sendBlock_open _ out hopen
  rw [hblock, h1]
  exact ⟨ch', by simp [deinterleave], h2, h3⟩

theorem feed_block_full {α : Type} (engine : List α → List α → List α × List α)
    (b : List (α × α)) (calls : List (List α × List α)) (out : Chan α)
    (hb : b.length = BLOCK_SIZE) (hopen : out.closed = false)
    (hfull : out.capacity ≤ out.queue.length) :
    feed engine ⟨0, [], calls, out⟩ b = .ok ⟨0, [], calls ++ [deinterleave b], out⟩ := by
  have hb0 : b ≠ [] := by
    intro h
    rw [h] at hb
    simp [BLOCK_SIZE] at hb
  obtain ⟨l, x, rfl⟩ : ∃ l x, b = l ++ [x] :=
    ⟨b.dropLast, b.getLast hb0, (List.dropLast_append_getLast hb0).symm⟩
  have hl : l.length = BLOCK_SIZE - 1 := by
    simp only [List.length_append, List.length_singleton] at hb
    omega
  rw [feed_append]
  rw [feed_fill engine l ⟨0, [], calls, out⟩ (by simp [hl, BLOCK_SIZE])]
  simp only [feed, feedFrame]
  rw [if_neg (by simp [hl, BLOCK_SIZE])]
  have hblock : (x :: (l.reverse ++ ([] : List (α × α)))).reverse = l ++ [x] := by
    simp
  rw [hblock, sendBlock_full _ out hopen hfull]
  simp [deinterleave]

theorem feed_char {α : Type} (engine : List α → List α → List α × List α) :
    ∀ (m : Nat) (frames : List (α × α)) (calls : List (List α × List α)) (out : Chan α),
      frames.length = m → out.closed = false →
      ∃ out', feed engine ⟨0, [], calls, out⟩ frames =
          .ok ⟨frames.length % BLOCK_SIZE,
               (frames.drop (BLOCK_SIZE * (frames.length / BLOCK_SIZE))).reverse,
               calls ++ (fullBlocks BLOCK_SIZE frames).map deinterleave,
               out'⟩
        ∧ out'.closed = false := by
  intro m
  induction m using Nat.strong_induction_on with
  | _ m ih =>
    intro frames calls out hm hopen
    by_cases hlt : frames.length < BLOCK_SIZE
    · refine ⟨out, ?_, hopen⟩
      rw [feed_fill engine frames _ (by simpa using hlt)]
      rw [Nat.mod_eq_of_lt hlt, Nat.div_eq_of_lt hlt, Nat.mul_zero, List.drop_zero,
        fullBlocks_of_lt hlt]
      simp
    · push_neg at hlt
      have hbpos : (0 : Nat) < BLOCK_SIZE := by simp [BLOCK_SIZE]
      have htake : (frames.take BLOCK_SIZE).length = BLOCK_SIZE := by
        simp only [List.length_take]
        omega
      obtain ⟨out1, hfeed1, hop1, hcap1⟩ :=
        feed_block_open engine (frames.take BLOCK_SIZE) calls out htake hopen
      have hdec : (frames.drop BLOCK_SIZE).length < m := by
        subst hm
        simp only [List.length_drop]
        omega
      obtain ⟨out2, hfeed2, hop2⟩ :=
        ih _ hdec (frames.drop BLOCK_SIZE)
          (calls ++ [deinterleave (frames.take BLOCK_SIZE)]) out1 rfl hop1
      refine ⟨out2, ?_, hop2⟩
      have hsplit : feed engine ⟨0, [], calls, out⟩ frames
          = feed engine ⟨0, [], calls, out⟩ (frames.take BLOCK_SIZE ++ frames.drop BLOCK_SIZE) := by
        rw [List.take_append_drop]
      have step1 : feed engine ⟨0, [], calls, out⟩ frames
          = feed engine ⟨0, [], calls ++ [deinterleave (frames.take BLOCK_SIZE)], out1⟩
              (frames.drop BLOCK_SIZE) := by
        rw [hsplit, feed_append, hfeed1]
      rw [step1, hfeed2]
      have hlen : (frames.drop BLOCK_SIZE).length = frames.length - BLOCK_SIZE :=
        List.length_drop _ _
      have hmod : (frames.drop BLOCK_SIZE).length % BLOCK_SIZE = frames.length % BLOCK_SIZE := by
        rw [hlen]
        simp only [BLOCK_SIZE] at hlt ⊢
        omega
      have hdiv : BLOCK_SIZE * ((frames.drop BLOCK_SIZE).length / BLOCK_SIZE) + BLOCK_SIZE
          = BLOCK_SIZE * (frames.length / BLOCK_SIZE) := by
        rw [hlen]
        simp only [BLOCK_SIZE] at hlt ⊢
        omega
      have hdrop : (frames.drop BLOCK_SIZE).drop
            (BLOCK_SIZE * ((frames.drop BLOCK_SIZE).length / BLOCK_SIZE))
          = frames.drop (BLOCK_SIZE * (frames.length / BLOCK_SIZE)) := by
        rw [List.drop_drop, Nat.add_comm, hdiv]
      have hblocks : fullBlocks BLOCK_SIZE frames
          = frames.take BLOCK_SIZE :: fullBlocks BLOCK_SIZE (frames.drop BLOCK_SIZE) :=
        fullBlocks_step hbpos hlt
      rw [hmod, hdrop, hblocks]
      simp [List.append_assoc]

theorem procRecv_frames {α : Type} (engine : List α → List α → List α × List α) :
    ∀ (fs : List (α × α)) (rest : List (Ev α)) (st : PState α),
      procRecv engine (fs.map Ev.frame ++ rest) true st =
        match feed engine st fs with
        | .ok st' => procRecv engine rest true st'
        | .error (e, st') => (.err e, true, st') := by
  intro fs
  induction fs with
  | nil => intros; rfl
  | cons f fs ih =>
    intro rest st
    simp only [List.map_cons, List.cons_append, procRecv, feed]
    cases hf : feedFrame engine st f with
    | ok st' => simpa using ih rest st'
    | error e =>
      obtain ⟨e, st'⟩ := e
      rfl

theorem procRecv_ok_run {α : Type} (engine : List α → List α → List α × List α) :
    ∀ (evs : List (Ev α)) (run : Bool) (st : PState α),
      (procRecv engine evs run st).1 = .ok → (procRecv engine evs run st).2.1 = true := by
  intro evs
  induction evs with
  | nil =>
    intro run st h
    simp [procRecv] at h
  | cons e rest ih =>
    intro run st h
    cases e with
    | setRun b =>
      rw [procRecv] at h ⊢
      exact ih b st h
    | closed =>
      simp [procRecv] at h
    | frame f =>
      rw [procRecv] at h ⊢
      cases hf : feedFrame engine st f with
      | error e' =>
        obtain ⟨e', st'⟩ := e'
        rw [hf] at h
        simp at h
      | ok st' =>
        rw [hf] at h
        cases run with
        | true =>
          have h' : (procRecv engine rest true st').1 = Outcome.ok := by simpa using h
          simpa [hf] using ih true st' h'
        | false => simp [hf]

end WhisperWare

namespace WhisperWare

theorem captureCallback_total {α : Type} :
    ∀ (input : List α) (ch : Chan α), input.length % 2 = 0 →
      ∃ ch', captureCallback input ch = some ch'
  | [], ch, _ => ⟨ch, rfl⟩
  | [_], _, h => by simp at h
  | a :: b :: rest, ch, h => by
    rw [captureCallback]
    exact captureCallback_total rest (captureSend ch (a, b))
      (by simp only [List.length_cons] at h; omega)

theorem captureCallback_content {α : Type} :
    ∀ (input : List α) (ch : Chan α), input.length % 2 = 0 →
      ch.closed = false → ch.queue.length ≤ ch.capacity →
      captureCallback input ch =
        some ⟨ch.queue ++ (framePairs input).take (ch.capacity - ch.queue.length),
              ch.capacity, false⟩
  | [], ch, _, hcl, _ => by
    obtain ⟨q, cap, cl⟩ := ch
    simp only at hcl
    subst hcl
    simp [captureCallback, framePairs]
  | [_], _, h, _, _ => by simp at h
  | a :: b :: rest, ch, h, hcl, hle => by
    obtain ⟨q, cap, cl⟩ := ch
    simp only at hcl hle
    subst hcl
    have hrest : rest.length % 2 = 0 := by
      simp only [List.length_cons] at h
      omega
    rw [captureCallback]
    by_cases hlt : q.length < cap
    · have hsend : captureSend ⟨q, cap, false⟩ (a, b) = ⟨q ++ [(a, b)], cap, false⟩ := by
        simp [captureSend, trySend, hlt]
      rw [hsend, captureCallback_content rest ⟨q ++ [(a, b)], cap, false⟩ hrest rfl
        (by simp only [List.length_append, List.length_singleton]; omega)]
      have hcap : cap - q.length = (cap - (q.length + 1)) + 1 := by omega
      simp [framePairs, hcap, List.append_assoc]
    · have heq : q.length = cap := Nat.le_antisymm hle (Nat.not_lt.1 hlt)
      have hsend : captureSend ⟨q, cap, false⟩ (a, b) = ⟨q, cap, false⟩ := by
        simp [captureSend, trySend, hlt]
      rw [hsend, captureCallback_content rest ⟨q, cap, false⟩ hrest rfl (by simp [heq])]
      have h0 : cap - q.length = 0 := by omega
      simp [framePairs, h0]

/-- C10: the claim states the capture callback is total for every interleaved
buffer including odd sample counts.  That fails (see `c10_counterexample`);
the amended claim: for every buffer with an EVEN sample count the callback is
total (performs only in-bounds accesses, never panics) and, on an open
non-overfull input bridge, enqueues one two-sample frame per pair of
consecutive samples in order, silently dropping the frames that arrive once
the bridge is at capacity; an odd sample count makes the final one-sample
chunk panic with an out-of-bounds index. -/
theorem c10_amended {α : Type} (input : List α) (ch : Chan α) (h : input.length % 2 = 0) :
    (∃ ch', captureCallback input ch = some ch')
    ∧ (ch.closed = false → ch.queue.length ≤ ch.capacity →
        captureCallback input ch =
          some ⟨ch.queue ++ (framePairs input).take (ch.capacity - ch.queue.length),
                ch.capacity, false⟩) :=
  ⟨captureCallback_total input ch h,
   fun hcl hle => captureCallback_content input ch h hcl hle⟩

/-- C10 (counterexample): a capture buffer with an odd number of samples
panics — `input.chunks(2)` ends with a one-element chunk and `frame[1]` is
out of bounds — so the callback is not total on odd buffers as claimed. -/
theorem c10_counterexample : captureCallback [(0 : Int)] (sessionChan Int) = none := rfl

/-- C10 (witness): the amended theorem at the concrete even buffer `[1, 2]`
and a fresh input bridge. -/
theorem c10_amended_witness :
    ([(1 : Int), 2] : List Int).length % 2 = 0
    ∧ captureCallback [(1 : Int), 2] (sessionChan Int)
        = some ⟨[((1 : Int), 2)], BLOCK_SIZE * 4, false⟩ := by
  constructor
  · decide
  · rw [(c10_amended [(1 : Int), 2] (sessionChan Int) (by decide)).2 rfl (by decide)]
    decide

/-- C3: the claim states that whenever no frame is available on the output
bridge the render callback substitutes silence immediately.  That fails when
the bridge is empty but still connected — `output_receiver.recv()` is a
blocking receive and `unwrap_or(SILENCE)` only fires on its `Err`, i.e. on a
closed channel (see `c3_counterexample`).  Amended claim: on an empty output
bridge the render callback substitutes `SILENCE` when the bridge is
disconnected, and blocks until a frame arrives when the bridge is open. -/
theorem c3_amended (ch : Chan Int) (h : ch.queue = []) :
    (ch.closed = true → renderFrame ch = .fills SILENCE ch)
    ∧ (ch.closed = false → renderFrame ch = .blocked) := by
  constructor <;> intro hc <;> simp [renderFrame, chanRecv, h, hc]

/-- C3 (counterexample): on an empty but open output bridge the render
callback blocks inside `recv` instead of substituting `SILENCE`. -/
theorem c3_counterexample :
    renderFrame ⟨[], BLOCK_SIZE * 4, false⟩ = .blocked
    ∧ renderFrame ⟨[], BLOCK_SIZE * 4, false⟩
        ≠ .fills SILENCE ⟨[], BLOCK_SIZE * 4, false⟩ := by
  exact ⟨rfl, by decide⟩

/-- C3 (witness): the amended theorem at a concrete empty, closed bridge. -/
theorem c3_amended_witness :
    (⟨[], BLOCK_SIZE * 4, true⟩ : Chan Int).queue = []
    ∧ renderFrame ⟨[], BLOCK_SIZE * 4, true⟩
        = .fills SILENCE ⟨[], BLOCK_SIZE * 4, true⟩ :=
  ⟨rfl, (c3_amended ⟨[], BLOCK_SIZE * 4, true⟩ rfl).1 rfl⟩

/-- C9: the claim states the run flag is reset to `true` on EVERY exit of the
processing loop, including fatal bridge errors.  The reset
(`run.store(true)`) only executes on the normal exit path — a `?`-propagated
bridge error skips it (see `c9_counterexample`).  Amended claim: when the
loop exits because the run flag was observed cleared, the flag is reset to
`true` (so an `Ok` exit always leaves the flag `true`); when the loop exits
with a fatal bridge error, no reset occurs and the flag keeps its current
value — in particular it stays `false` when it was cleared while the loop
was blocked in its final `recv`. -/
theorem c9_amended {α : Type} (engine : List α → List α → List α × List α) :
    (∀ (evs : List (Ev α)) (run : Bool) (st : PState α),
        (procLoop engine evs run st).1 = .ok → (procLoop engine evs run st).2.1 = true)
    ∧ (∀ (run : Bool) (st : PState α),
        procRecv engine [Ev.closed] run st = (.err .Receive, run, st)) := by
  constructor
  · intro evs run st h
    cases run with
    | false => rfl
    | true =>
      rw [show procLoop engine evs true st = procRecv engine evs true st from rfl] at h ⊢
      exact procRecv_ok_run engine evs true st h
  · intro run st
    rfl

/-- C9 (counterexample): the flag is cleared while the loop is blocked in
`recv`, then the input bridge closes; the loop exits with the bridge error
and the flag is still `false` when the supervisor's next session-start
attempt begins — no reset happened. -/
theorem c9_counterexample :
    procLoop (fun (a b : List Int) => (a, b)) [Ev.setRun false, Ev.closed] true
        ⟨0, [], [], sessionChan Int⟩
      = (.err .Receive, false, ⟨0, [], [], sessionChan Int⟩) := rfl

/-- C9 (witness): the amended theorem's flag-exit branch at a concrete state:
a loop started with the flag already cleared exits with the flag `true`. -/
theorem c9_amended_witness :
    (procLoop (fun (a b : List Int) => (a, b)) [] false ⟨0, [], [], sessionChan Int⟩).2.1
      = true :=
  (c9_amended (fun (a b : List Int) => (a, b))).1 [] false ⟨0, [], [], sessionChan Int⟩ rfl

end WhisperWare

namespace WhisperWare

/-- C2: the claim states that enqueuing a processed frame onto a FULL output
bridge drops the frame AND makes `processor` return a fatal `Err`.  The
second half fails: `sender.try_send(...)?` only propagates the `Err` of a
CLOSED channel, while a full queue yields `Ok(false)`, which the `?;`
discards — the frame is dropped silently and the session keeps running (see
`c2_counterexample`).  Amended claim: on a full output bridge each processed
frame is dropped silently with no error; `processor` returns a fatal `Err`
from the output bridge only when the bridge is disconnected (closed); and
capture-side drops (full or even closed input bridge) are silent and never
fail the session. -/
theorem c2_amended {α : Type} (engine : List α → List α → List α × List α)
    (chF chC : Chan α) (f : α × α) (b fs : List (α × α))
    (calls : List (List α × List α))
    (hFopen : chF.closed = false) (hFfull : chF.capacity ≤ chF.queue.length)
    (hb : b.length = BLOCK_SIZE) (hCclosed : chC.closed = true) :
    trySend chF f = .ok (false, chF)
    ∧ feed engine ⟨0, [], calls, chF⟩ b = .ok ⟨0, [], calls ++ [deinterleave b], chF⟩
    ∧ sendBlock chC (f :: fs) = .error chC
    ∧ captureSend chF f = chF
    ∧ captureSend chC f = chC := by
  refine ⟨?_, ?_, ?_, ?_, ?_⟩
  · rw [trySend, if_neg (by simp [hFopen]), if_neg (Nat.not_lt.2 hFfull)]
  · exact feed_block_full engine b calls chF hb hFopen hFfull
  · exact sendBlock_closed f fs chC hCclosed
  · simp [captureSend, trySend, hFopen, Nat.not_lt.2 hFfull]
  · simp [captureSend, trySend, hCclosed]

/-- C2 (counterexample): a full, still-connected output bridge; a complete
block of 512 frames is processed and every re-interleaved output frame is
enqueued onto the full bridge; the run then ends with `Ok` (no fatal session
error) and the bridge is unchanged — all 512 frames were silently dropped,
contradicting the claimed `Err`. -/
theorem c2_counterexample :
    (procLoop (fun a b => (a, b))
        (List.replicate BLOCK_SIZE (Ev.frame ((1 : Int), 2))
          ++ [Ev.setRun false, Ev.frame ((0 : Int), 0)])
        true ⟨0, [], [], ⟨List.replicate (BLOCK_SIZE * 4) ((0 : Int), 0), BLOCK_SIZE * 4, false⟩⟩).1
      = .ok
    ∧ (procLoop (fun a b => (a, b))
        (List.replicate BLOCK_SIZE (Ev.frame ((1 : Int), 2))
          ++ [Ev.setRun false, Ev.frame ((0 : Int), 0)])
        true ⟨0, [], [], ⟨List.replicate (BLOCK_SIZE * 4) ((0 : Int), 0), BLOCK_SIZE * 4, false⟩⟩).2.2.out
      = ⟨List.replicate (BLOCK_SIZE * 4) ((0 : Int), 0), BLOCK_SIZE * 4, false⟩
    ∧ (procLoop (fun a b => (a, b))
        (List.replicate BLOCK_SIZE (Ev.frame ((1 : Int), 2))
          ++ [Ev.setRun false, Ev.frame ((0 : Int), 0)])
        true ⟨0, [], [], ⟨List.replicate (BLOCK_SIZE * 4) ((0 : Int), 0), BLOCK_SIZE * 4, false⟩⟩).2.2.calls.length
      = 1 := by
  have hfull : (⟨List.replicate (BLOCK_SIZE * 4) ((0 : Int), 0), BLOCK_SIZE * 4, false⟩ : Chan Int).capacity
      ≤ (⟨List.replicate (BLOCK_SIZE * 4) ((0 : Int), 0), BLOCK_SIZE * 4, false⟩ : Chan Int).queue.length := by
    simp
  have hfeed := feed_block_full (fun a b => (a, b)) (List.replicate BLOCK_SIZE ((1 : Int), 2)) []
      ⟨List.replicate (BLOCK_SIZE * 4) ((0 : Int), 0), BLOCK_SIZE * 4, false⟩
      (by simp) rfl hfull
  have hmap : List.replicate BLOCK_SIZE (Ev.frame ((1 : Int), 2))
      = (List.replicate BLOCK_SIZE ((1 : Int), 2)).map Ev.frame := by
    rw [List.map_replicate]
  have hrun : procLoop (fun a b => (a, b))
      (List.replicate BLOCK_SIZE (Ev.frame ((1 : Int), 2))
        ++ [Ev.setRun false, Ev.frame ((0 : Int), 0)])
      true ⟨0, [], [], ⟨List.replicate (BLOCK_SIZE * 4) ((0 : Int), 0), BLOCK_SIZE * 4, false⟩⟩
      = (.ok, true,
          ⟨1, [((0 : Int), 0)], [deinterleave (List.replicate BLOCK_SIZE ((1 : Int), 2))],
            ⟨List.replicate (BLOCK_SIZE * 4) ((0 : Int), 0), BLOCK_SIZE * 4, false⟩⟩) := by
    rw [procLoop, if_pos rfl, hmap, procRecv_frames]
    simp only [hfeed, List.nil_append]
    rw [procRecv, procRecv]
    have hff : feedFrame (fun (a b : List Int) => (a, b))
        ⟨0, [], [deinterleave (List.replicate BLOCK_SIZE ((1 : Int), 2))],
          ⟨List.replicate (BLOCK_SIZE * 4) ((0 : Int), 0), BLOCK_SIZE * 4, false⟩⟩ ((0 : Int), 0)
        = .ok ⟨1, [((0 : Int), 0)], [deinterleave (List.replicate BLOCK_SIZE ((1 : Int), 2))],
            ⟨List.replicate (BLOCK_SIZE * 4) ((0 : Int), 0), BLOCK_SIZE * 4, false⟩⟩ := by
      rw [feedFrame]
      exact if_pos (show 0 + 1 < BLOCK_SIZE by simp [BLOCK_SIZE])
    simp only [hff]
    rfl
  exact ⟨by rw [hrun], by rw [hrun], by rw [hrun]; rfl⟩

/-- C2 (witness): the amended theorem at a concrete full open bridge, a
concrete closed bridge, and the all-ones block. -/
theorem c2_amended_witness :
    (⟨List.replicate (BLOCK_SIZE * 4) ((0 : Int), 0), BLOCK_SIZE * 4, false⟩ : Chan Int).closed = false
    ∧ trySend (⟨List.replicate (BLOCK_SIZE * 4) ((0 : Int), 0), BLOCK_SIZE * 4, false⟩ : Chan Int) ((5 : Int), 6)
        = .ok (false, ⟨List.replicate (BLOCK_SIZE * 4) ((0 : Int), 0), BLOCK_SIZE * 4, false⟩)
    ∧ captureSend (⟨[], BLOCK_SIZE * 4, true⟩ : Chan Int) ((5 : Int), 6) = ⟨[], BLOCK_SIZE * 4, true⟩ := by
  refine ⟨rfl, ?_, ?_⟩
  · exact (c2_amended (fun a b => (a, b))
      (⟨List.replicate (BLOCK_SIZE * 4) ((0 : Int), 0), BLOCK_SIZE * 4, false⟩ : Chan Int)
      (⟨[], BLOCK_SIZE * 4, true⟩ : Chan Int)
      ((5 : Int), 6) (List.replicate BLOCK_SIZE ((1 : Int), 2)) [] [] rfl (by simp)
      (by simp) rfl).1
  · exact (c2_amended (fun a b => (a, b))
      (⟨List.replicate (BLOCK_SIZE * 4) ((0 : Int), 0), BLOCK_SIZE * 4, false⟩ : Chan Int)
      (⟨[], BLOCK_SIZE * 4, true⟩ : Chan Int)
      ((5 : Int), 6) (List.replicate BLOCK_SIZE ((1 : Int), 2)) [] [] rfl (by simp)
      (by simp) rfl).2.2.2.2

end WhisperWare

namespace WhisperWare

/-- C1: block integrity of the processing loop, confirmed.  For any sequence
of received frames whose length is a multiple of `BLOCK_SIZE` (running
against any engine and any still-connected output bridge, with the run flag
cleared during the wait for one extra frame so the loop exits normally), the
loop returns `Ok`, resets the flag, and has invoked the engine exactly
`length / BLOCK_SIZE` times, call `j` receiving exactly the frames of block
`j` deinterleaved in arrival order (frame `k` of a block at position `k` of
each channel buffer); the extra frame stays an unsubmitted partial block.
Moreover, for an ARBITRARY frame sequence followed by a bridge-error exit,
the engine was invoked exactly `length / BLOCK_SIZE` times on the complete
blocks only — a trailing partial block is never submitted on either exit
path. -/
theorem c1_block_integrity {α : Type} (engine : List α → List α → List α × List α)
    (frames gframes : List (α × α)) (dummy : α × α) (k : Nat) (ch ch2 : Chan α)
    (o o2 : Outcome) (b b2 : Bool) (stf stf2 : PState α)
    (hlen : frames.length = BLOCK_SIZE * k)
    (hopen : ch.closed = false) (hopen2 : ch2.closed = false)
    (heq : procLoop engine (frames.map Ev.frame ++ [Ev.setRun false, Ev.frame dummy])
        true ⟨0, [], [], ch⟩ = (o, b, stf))
    (heq2 : procLoop engine (gframes.map Ev.frame ++ [Ev.closed]) true ⟨0, [], [], ch2⟩
        = (o2, b2, stf2)) :
    o = .ok ∧ b = true
    ∧ stf.calls = (fullBlocks BLOCK_SIZE frames).map deinterleave
    ∧ stf.calls.length = k
    ∧ stf.revAcc = [dummy]
    ∧ o2 = .err .Receive
    ∧ stf2.calls = (fullBlocks BLOCK_SIZE gframes).map deinterleave
    ∧ stf2.calls.length = gframes.length / BLOCK_SIZE := by
  have hbpos : (0 : Nat) < BLOCK_SIZE := by simp [BLOCK_SIZE]
  obtain ⟨out1, hfeed1, hop1⟩ := feed_char engine frames.length frames [] ch rfl hopen
  have hmod : frames.length % BLOCK_SIZE = 0 := by
    rw [hlen]
    exact Nat.mul_mod_right _ _
  have hdiv : frames.length / BLOCK_SIZE = k := by
    rw [hlen]
    exact Nat.mul_div_cancel_left k hbpos
  have hdrop : frames.drop (BLOCK_SIZE * (frames.length / BLOCK_SIZE)) = [] := by
    apply List.drop_eq_nil_of_le
    rw [hdiv, hlen]
  rw [hmod, hdrop] at hfeed1
  simp only [List.reverse_nil, List.nil_append] at hfeed1
  have hff : feedFrame engine
      ⟨0, [], (fullBlocks BLOCK_SIZE frames).map deinterleave, out1⟩ dummy
      = .ok ⟨1, [dummy], (fullBlocks BLOCK_SIZE frames).map deinterleave, out1⟩ := by
    rw [feedFrame]
    exact if_pos (show 0 + 1 < BLOCK_SIZE by simp [BLOCK_SIZE])
  have hrun : procLoop engine (frames.map Ev.frame ++ [Ev.setRun false, Ev.frame dummy])
      true ⟨0, [], [], ch⟩
      = (.ok, true, ⟨1, [dummy], (fullBlocks BLOCK_SIZE frames).map deinterleave, out1⟩) := by
    rw [procLoop, if_pos rfl, procRecv_frames]
    simp only [hfeed1]
    rw [procRecv, procRecv]
    simp only [hff]
    rfl
  obtain ⟨out2, hfeed2, hop2⟩ := feed_char engine gframes.length gframes [] ch2 rfl hopen2
  simp only [List.nil_append] at hfeed2
  have hrun2 : procLoop engine (gframes.map Ev.frame ++ [Ev.closed]) true ⟨0, [], [], ch2⟩
      = (.err .Receive, true,
          ⟨gframes.length % BLOCK_SIZE,
           (gframes.drop (BLOCK_SIZE * (gframes.length / BLOCK_SIZE))).reverse,
           (fullBlocks BLOCK_SIZE gframes).map deinterleave, out2⟩) := by
    rw [procLoop, if_pos rfl, procRecv_frames]
    simp only [hfeed2]
    rfl
  rw [hrun] at heq
  rw [hrun2] at heq2
  obtain ⟨rfl, rfl, rfl⟩ : Outcome.ok = o ∧ true = b
      ∧ (⟨1, [dummy], (fullBlocks BLOCK_SIZE frames).map deinterleave, out1⟩ : PState α) = stf := by
    simpa [Prod.ext_iff] using heq
  obtain ⟨rfl, rfl, rfl⟩ : Outcome.err .Receive = o2 ∧ true = b2
      ∧ (⟨gframes.length % BLOCK_SIZE,
          (gframes.drop (BLOCK_SIZE * (gframes.length / BLOCK_SIZE))).reverse,
          (fullBlocks BLOCK_SIZE gframes).map deinterleave, out2⟩ : PState α) = stf2 := by
    simpa [Prod.ext_iff] using heq2
  refine ⟨rfl, rfl, rfl, ?_, rfl, rfl, rfl, ?_⟩
  · rw [List.length_map, length_fullBlocks hbpos frames.length frames rfl, hdiv]
  · rw [List.length_map, length_fullBlocks hbpos gframes.length gframes rfl]

end WhisperWare

namespace WhisperWare

/-- C1 (witness): the theorem at the empty frame sequence (`k = 0`), a fresh
output bridge, an identity engine and a concrete dummy trailing frame. -/
theorem c1_block_integrity_witness :
    ([] : List (Int × Int)).length = BLOCK_SIZE * 0
    ∧ (sessionChan Int).closed = false
    ∧ (⟨1, [((0 : Int), 0)], [], sessionChan Int⟩ : PState Int).calls.length = 0
    ∧ (⟨1, [((0 : Int), 0)], [], sessionChan Int⟩ : PState Int).revAcc = [((0 : Int), 0)] := by
  refine ⟨by decide, rfl, ?_, ?_⟩
  · exact (c1_block_integrity (fun a b => (a, b)) [] [] ((0 : Int), 0) 0
      (sessionChan Int) (sessionChan Int) .ok (.err .Receive) true true
      ⟨1, [((0 : Int), 0)], [], sessionChan Int⟩ ⟨0, [], [], sessionChan Int⟩
      (by decide) rfl rfl rfl rfl).2.2.2.1
  · exact (c1_block_integrity (fun a b => (a, b)) [] [] ((0 : Int), 0) 0
      (sessionChan Int) (sessionChan Int) .ok (.err .Receive) true true
      ⟨1, [((0 : Int), 0)], [], sessionChan Int⟩ ⟨0, [], [], sessionChan Int⟩
      (by decide) rfl rfl rfl rfl).2.2.2.2.1

/-- C4: device resolution, confirmed.  `"Default"` resolves to the platform
default device of the role (and fails with the role's error when there is
none); any other selection string resolves to the FIRST enumerated device of
the role whose name contains the string as a contiguous substring (devices
whose names cannot be read never match); when no device matches, resolution
fails with the role's error (`NoInputDevice` / `NoOutputDevice`). -/
theorem c4_device_resolution (sel : String) (dflt : Option Device)
    (devs : List Device) (e : ErrorKind) :
    (∀ d, sel = "Default" → dflt = some d → resolveDevice sel dflt devs e = .ok d)
    ∧ (sel = "Default" → dflt = none → resolveDevice sel dflt devs e = .error e)
    ∧ (∀ d, sel ≠ "Default" → resolveDevice sel dflt devs e = .ok d →
        ∃ pre post, devs = pre ++ d :: post
          ∧ (∃ n s t, d.name? = some n ∧ n.data = s ++ sel.data ++ t)
          ∧ ∀ x ∈ pre, ¬ ∃ n s t, x.name? = some n ∧ n.data = s ++ sel.data ++ t)
    ∧ (sel ≠ "Default" →
        (∀ x ∈ devs, ¬ ∃ n s t, x.name? = some n ∧ n.data = s ++ sel.data ++ t) →
        resolveDevice sel dflt devs e = .error e) := by
  refine ⟨?_, ?_, ?_, ?_⟩
  · intro d hsel hd
    rw [resolveDevice.eq_def, if_pos hsel, hd]
  · intro hsel hd
    rw [resolveDevice.eq_def, if_pos hsel, hd]
  · intro d hsel hok
    rw [resolveDevice.eq_def, if_neg hsel] at hok
    cases hfind : devs.find? (fun x => device_by_name x sel) with
    | none => rw [hfind] at hok; exact absurd hok (by simp)
    | some d' =>
      rw [hfind] at hok
      have hd : d' = d := by simpa using hok
      subst hd
      obtain ⟨pre, post, rfl, hp, hpre⟩ := find?_first _ devs d' hfind
      refine ⟨pre, post, rfl, (device_by_name_iff d' sel).1 hp, ?_⟩
      intro x hx hcon
      exact absurd ((device_by_name_iff x sel).2 hcon) (by simp [hpre x hx])
  · intro hsel hnone
    rw [resolveDevice.eq_def, if_neg hsel]
    have : devs.find? (fun x => device_by_name x sel) = none := by
      rw [List.find?_eq_none]
      intro x hx
      simp only [Bool.not_eq_true]
      rcases hbn : device_by_name x sel with _ | _
      · rfl
      · exact absurd ((device_by_name_iff x sel).1 hbn) (hnone x hx)
    rw [this]

/-- C4 (witness): the theorem at concrete inputs: `"Default"` with a present
default device resolves to it, and a substring selection with no matching
device yields the role error. -/
theorem c4_device_resolution_witness :
    resolveDevice "Default" (some ⟨some "Speakers", none⟩) [] ErrorKind.NoOutputDevice
      = .ok ⟨some "Speakers", none⟩
    ∧ resolveDevice "Microphone" none [⟨some "Speakers", none⟩] ErrorKind.NoInputDevice
      = .error ErrorKind.NoInputDevice := by
  constructor
  · exact (c4_device_resolution "Default" (some ⟨some "Speakers", none⟩) []
      ErrorKind.NoOutputDevice).1 ⟨some "Speakers", none⟩ rfl rfl
  · refine (c4_device_resolution "Microphone" none [⟨some "Speakers", none⟩]
      ErrorKind.NoInputDevice).2.2.2 (by decide) ?_
    intro x hx
    rcases List.mem_singleton.1 hx with rfl
    rintro ⟨n, s, t, hn, hdata⟩
    have hn' : n = "Speakers" := by
      have := hn
      simp only [Option.some.injEq] at this
      exact this.symm
    subst hn'
    have hlen := congrArg List.length hdata
    rw [List.length_append, List.length_append] at hlen
    have h8 : ("Speakers".data).length = 8 := rfl
    have h10 : ("Microphone".data).length = 10 := rfl
    rw [h8, h10] at hlen
    omega

/-- C5: format rejection, confirmed.  When both devices resolve and expose
default stream configs, a sample-rate mismatch or a channel count other than
2 on either side makes `backend` return `InvalidConfiguration` having
performed no action at all: the engine is not reconfigured and no stream is
built, started, or played. -/
theorem c5_format_rejection (env : BackendEnv) (din dout : Device)
    (inRate inChannels outRate outChannels : Nat)
    (hin : resolveDevice env.inputName env.defaultInput env.inputDevices .NoInputDevice
        = .ok din)
    (hout : resolveDevice env.outputName env.defaultOutput env.outputDevices .NoOutputDevice
        = .ok dout)
    (hic : din.config? = some (inRate, inChannels))
    (hoc : dout.config? = some (outRate, outChannels))
    (hbad : inRate ≠ outRate ∨ inChannels ≠ 2 ∨ outChannels ≠ 2) :
    ∃ m, backendModel env = (.error (.InvalidConfiguration m), []) := by
  rw [backendModel]
  simp only [hin, hout, hic, hoc]
  by_cases hrate : inRate = outRate
  · subst hrate
    rw [if_neg (by simp)]
    have hch : inChannels ≠ 2 ∨ outChannels ≠ 2 := by
      rcases hbad with h | h
      · exact absurd rfl h
      · exact h
    rw [if_pos hch]
    exact ⟨_, rfl⟩
  · rw [if_pos hrate]
    exact ⟨_, rfl⟩

/-- C5 (witness): the theorem at a concrete environment whose default
devices expose 48000 Hz stereo capture and 44100 Hz stereo render: the
session-start returns `InvalidConfiguration` with an empty action trace. -/
theorem c5_format_rejection_witness :
    backendModel
        ⟨"Default", "Default", [], [], some ⟨some "Mic", some (48000, 2)⟩,
          some ⟨some "Speakers", some (44100, 2)⟩, true⟩
      = (.error (.InvalidConfiguration "input and output sample rates are different"), []) := by
  obtain ⟨m, hm⟩ := c5_format_rejection
    ⟨"Default", "Default", [], [], some ⟨some "Mic", some (48000, 2)⟩,
      some ⟨some "Speakers", some (44100, 2)⟩, true⟩
    ⟨some "Mic", some (48000, 2)⟩ ⟨some "Speakers", some (44100, 2)⟩
    48000 2 44100 2 rfl rfl rfl rfl (Or.inl (by decide))
  have hcomp : backendModel
      ⟨"Default", "Default", [], [], some ⟨some "Mic", some (48000, 2)⟩,
        some ⟨some "Speakers", some (44100, 2)⟩, true⟩
      = (.error (.InvalidConfiguration "input and output sample rates are different"), []) := by
    rfl
  rw [hcomp] at hm
  exact hcomp

end WhisperWare

namespace WhisperWare

/-- C8: persistence round-trip, confirmed.  Serializing any parameter set
(11 parameter values and the two device strings) to the parameter file's
JSON document and deserializing it back yields the same set.  Parameter
values are carried exactly at the document level, matching serde_json's
exact round-trip of every finite `f32` through its decimal text form —
"within floating-point representation tolerance" in the claim's words. -/
theorem c8_roundtrip (c : Config) : parseConfig (serializeConfig c) = .ok c := by
  rfl

/-- C6: startup seeding, corrected.  Confirmed parts: a parameter file that
exists and parses seeds the store with its contents, and a missing file
seeds the fixed defaults (exactly the claimed constants) and persists them.
Refuted part: a file that exists but FAILS to parse does not fall back to
the defaults — `from_reader(file)?` propagates the parse failure and startup
fails with a `Json` error (see `c6_counterexample`). -/
theorem c6_amended :
    (∀ (j : Json) (c : Config) (a b : Bool), parseConfig j = .ok c →
        AtomicConfig.new (.holds (some j)) true a b = .ok (c, .holds (some j)))
    ∧ (∀ (o : Bool), AtomicConfig.new .missing o true true
        = .ok (Config.default, .holds (some (serializeConfig Config.default))))
    ∧ Config.default
        = ⟨20, 1, 0.48333332, 1, 0, 0.09090909, 0.33333334, 1, 1, 0, 1, "Default", "Default"⟩
    ∧ (∀ (a b : Bool), AtomicConfig.new (.holds none) true a b = .error .Json) := by
  refine ⟨?_, ?_, rfl, ?_⟩
  · intro j c a b h
    simp [AtomicConfig.new, h, Except.map]
  · intro o
    simp [AtomicConfig.new]
  · intro a b
    simp [AtomicConfig.new]

/-- C6 (counterexample): a parameter file that exists but does not parse
makes `AtomicConfig::new` return a `Json` error — the defaults do NOT take
over and startup fails, contradicting the claim's third part. -/
theorem c6_counterexample :
    AtomicConfig.new (.holds none) true true true = .error .Json
    ∧ AtomicConfig.new (.holds none) true true true
        ≠ .ok (Config.default, .holds none) := by
  refine ⟨rfl, ?_⟩
  intro h
  rw [show AtomicConfig.new (.holds none) true true true = .error .Json from rfl] at h
  exact Except.noConfusion h

/-- C6 (witness): the amended theorem's happy paths at the concrete document
produced by serializing the defaults. -/
theorem c6_amended_witness :
    parseConfig (serializeConfig Config.default) = .ok Config.default
    ∧ AtomicConfig.new (.holds (some (serializeConfig Config.default))) true true true
        = .ok (Config.default, .holds (some (serializeConfig Config.default)))
    ∧ AtomicConfig.new .missing true true true
        = .ok (Config.default, .holds (some (serializeConfig Config.default))) := by
  have h : parseConfig (serializeConfig Config.default) = .ok Config.default := by rfl
  exact ⟨h, c6_amended.1 (serializeConfig Config.default) Config.default true true h,
    c6_amended.2.1 true⟩

/-- C7: persistence-failure handling, corrected.  Confirmed parts: a failure
to OPEN the parameter file is logged and non-fatal (the iteration returns
normally without writing, the worker keeps running, and the snapshot is
written on the next change once the file opens again), an unchanged snapshot
is skipped, and the save path never mutates the in-memory store (it only
reads a snapshot and a worker-local copy).  Refuted part: a failure DURING
the write (`to_writer_pretty(...)?`) propagates out of `save_thread` and
terminates the persistence worker instead of being logged and retried (see
`c7_counterexample`). -/
theorem c7_amended (current old next : Config) (w o' w' p' : Bool)
    (hne : current ≠ old) (hnext : next ≠ current) :
    AtomicConfig.saveIteration current old true false w = .ok (current, false)
    ∧ AtomicConfig.saveIteration next current true true true = .ok (next, true)
    ∧ AtomicConfig.saveIteration current current p' o' w' = .ok (current, false) := by
  refine ⟨?_, ?_, ?_⟩
  · rw [AtomicConfig.saveIteration, if_neg hne]
    rfl
  · rw [AtomicConfig.saveIteration, if_neg hnext]
    rfl
  · rw [AtomicConfig.saveIteration, if_pos rfl]

/-- C7 (counterexample): the store's snapshot differs from the last persisted
state, the file opens, but the write itself fails: `save_thread` returns the
`Json` error — the worker terminates rather than logging and retrying,
contradicting the claim for this class of write failure. -/
theorem c7_counterexample :
    AtomicConfig.saveIteration { Config.default with sidechain_hpf := 21 } Config.default
        true true false = .error .Json := by
  rw [AtomicConfig.saveIteration,
    if_neg (by decide : ¬(({ Config.default with sidechain_hpf := 21 } : Config) = Config.default))]
  rfl

/-- C7 (witness): the amended theorem at concrete parameter sets: an
open-failure iteration returns normally without writing, and the following
change is written once the file opens. -/
theorem c7_amended_witness :
    ({ Config.default with sidechain_hpf := 21 } : Config) ≠ Config.default
    ∧ ({ Config.default with sidechain_hpf := 22 } : Config)
        ≠ { Config.default with sidechain_hpf := 21 }
    ∧ AtomicConfig.saveIteration { Config.default with sidechain_hpf := 21 } Config.default
        true false true = .ok ({ Config.default with sidechain_hpf := 21 }, false)
    ∧ AtomicConfig.saveIteration { Config.default with sidechain_hpf := 22 }
        { Config.default with sidechain_hpf := 21 } true true true
        = .ok ({ Config.default with sidechain_hpf := 22 }, true) := by
  refine ⟨by decide, by decide, ?_, ?_⟩
  · exact (c7_amended { Config.default with sidechain_hpf := 21 } Config.default
      { Config.default with sidechain_hpf := 22 } true true true true
      (by decide) (by decide)).1
  · exact (c7_amended { Config.default with sidechain_hpf := 21 } Config.default
      { Config.default with sidechain_hpf := 22 } true true true true
      (by decide) (by decide)).2.1

end WhisperWare
